import Mathlib

/-!
Shallow embedding of the kipo dashboard core (TypeScript sources
`src/tui/dashboard-data.ts`, `src/tui/dashboard-renderer.ts`,
`src/tui/dashboard.ts`) together with theorems settling the frozen
claims about it.  Machine numbers of the source are modelled as `Nat`
(ports, pids, screen sizes) and `Int` (indices, timestamps, signed
arithmetic); JavaScript strings are modelled as `String` or, for the
word-wrap algorithm, as `List Char`.
-/

namespace Kipo

/-- JS `hay.includes(needle)`: substring test on strings, character lists. -/
def jsIncludesList (hay needle : List Char) : Bool :=
  match hay with
  | [] => needle.isEmpty
  | c :: t => needle.isPrefixOf (c :: t) || jsIncludesList t needle

/-- JS `hay.includes(needle)` on strings. -/
def jsIncludes (hay needle : String) : Bool :=
  jsIncludesList hay.toList needle.toList

/-- `PortInfo` from `src/port/types.ts` (consumed read-only). -/
structure PortInfo where
  port : Nat
  pid : Nat
  processName : String
  command : String
  user : String
  protocol : String
  type : Option String
  lifetime : Option Nat
deriving DecidableEq

/-- `PortGroup` from `src/port/types.ts`. -/
structure PortGroup where
  id : String
  type : String
  collapsed : Bool
  ports : List PortInfo
deriving DecidableEq

/-- One element of the flattened filtered list: `{ port, group }`. -/
structure FlatEntry where
  port : PortInfo
  group : PortGroup
deriving DecidableEq

/-- Toast payload `{ message, emoji?, color? }`. -/
structure KillMsg where
  message : String
  emoji : Option String
  color : Option String
deriving DecidableEq

/-- The fields of `DashboardState` (src/tui/dashboard-state.ts) that the
claims under verification read. -/
structure DashboardState where
  selectedIndex : Int
  filter : String
  showHelp : Bool
  showConfirm : Bool
  showLogs : Bool
  showCommand : Bool
  showStats : Bool
  sortBy : String
  showDetails : Bool
  searching : Bool
  killMessage : Option KillMsg
  killMessageExpiresAt : Option Int
deriving DecidableEq

/-- `FilteredPortsCache` from src/tui/dashboard-data.ts. -/
structure FilteredPortsCache where
  result : List FlatEntry
  filter : String
  groupsHash : String
  sortBy : String
deriving DecidableEq

/-- The groups fingerprint built at the top of `getFilteredPorts`:
`groups.map(g => `${g.id}:${g.collapsed ? "1" : "0"}:${g.ports.length}`).join("|")`. -/
def groupsHash (groups : List PortGroup) : String :=
  String.intercalate "|"
    (groups.map (fun g =>
      g.id ++ ":" ++ (if g.collapsed then "1" else "0") ++ ":" ++ toString g.ports.length))

/-- The per-port filter test of `getFilteredPorts` (lines 49-57):
match against the port number (plain substring), the process name and
the command (both lowercased). -/
def portMatch (filter : String) (p : PortInfo) : Bool :=
  jsIncludes (toString p.port) filter

def processMatch (filter : String) (p : PortInfo) : Bool :=
  jsIncludes p.processName.toLower filter.toLower

def commandMatch (filter : String) (p : PortInfo) : Bool :=
  jsIncludes p.command.toLower filter.toLower

/-- The body of the inner port loop of `getFilteredPorts`
(dashboard-data.ts lines 47-61): the JS `continue` keeps the
accumulator unchanged, otherwise the entry is pushed. -/
def innerStep (filter : String) (group : PortGroup) (flat : List FlatEntry)
    (port : PortInfo) : List FlatEntry :=
  if filter ≠ "" then
    if !portMatch filter port && !processMatch filter port &&
        !commandMatch filter port then
      flat
    else
      flat ++ [⟨port, group⟩]
  else
    flat ++ [⟨port, group⟩]

/-- The body of the outer group loop of `getFilteredPorts`
(dashboard-data.ts lines 45-63): collapsed groups are skipped whole. -/
def outerStep (filter : String) (flat : List FlatEntry) (group : PortGroup) :
    List FlatEntry :=
  if !group.collapsed then group.ports.foldl (innerStep filter group) flat
  else flat

/-- The cache-miss recomputation loop of `getFilteredPorts`
(dashboard-data.ts lines 43-63). -/
def computeFlat (state : DashboardState) (groups : List PortGroup) : List FlatEntry :=
  groups.foldl (outerStep state.filter) []

/-- Cache-hit test of `getFilteredPorts` (lines 33-38). -/
def cacheHit (state : DashboardState) (groups : List PortGroup)
    (cache : FilteredPortsCache) : Prop :=
  cache.filter = state.filter ∧ cache.groupsHash = groupsHash groups ∧
    cache.sortBy = state.sortBy

instance (state : DashboardState) (groups : List PortGroup) (cache : FilteredPortsCache) :
    Decidable (cacheHit state groups cache) := by
  unfold cacheHit; infer_instance

/-- `getFilteredPorts` (dashboard-data.ts lines 19-74): returns the
flattened filtered list together with the new cache. -/
def getFilteredPorts (state : DashboardState) (groups : List PortGroup)
    (cache : Option FilteredPortsCache) :
    List FlatEntry × Option FilteredPortsCache :=
  match cache with
  | some c =>
    if cacheHit state groups c then
      (c.result, some c)
    else
      let flat := computeFlat state groups
      (flat, some ⟨flat, state.filter, groupsHash groups, state.sortBy⟩)
  | none =>
    let flat := computeFlat state groups
    (flat, some ⟨flat, state.filter, groupsHash groups, state.sortBy⟩)

/-- `getSelectedPort` (dashboard-data.ts lines 79-87).  A negative JS
array index yields `undefined`, hence `null`. -/
def jsGetElem (l : List FlatEntry) (i : Int) : Option FlatEntry :=
  if i < 0 then none else l[i.toNat]?

def getSelectedPort (filteredPorts : List FlatEntry) (selectedIndex : Int) :
    Option FlatEntry :=
  if filteredPorts.length = 0 then none
  else jsGetElem filteredPorts (min selectedIndex ((filteredPorts.length : Int) - 1))

/-- `moveSelection` (dashboard-data.ts lines 137-153). -/
def moveSelection (filteredPorts : List FlatEntry) (currentIndex direction : Int) : Int :=
  if filteredPorts.length = 0 then currentIndex
  else
    let newIndex := currentIndex + direction
    if newIndex < 0 then (filteredPorts.length : Int) - 1
    else if newIndex ≥ (filteredPorts.length : Int) then 0
    else newIndex

/-- `adjustSelectedIndex` (dashboard-data.ts lines 194-202). -/
def adjustSelectedIndex (filteredPorts : List FlatEntry) (currentIndex : Int) : Int :=
  if currentIndex ≥ (filteredPorts.length : Int) then
    max 0 ((filteredPorts.length : Int) - 1)
  else currentIndex

/-- `RenderState` from src/tui/dashboard-renderer.ts. -/
structure RenderState where
  filteredPorts : List FlatEntry
  selectedIndex : Int
  filter : String
  sortBy : String
  showDetails : Bool
deriving DecidableEq

/-- The current snapshot built in `DashboardRenderer.render` (lines 72-78). -/
def mkRenderState (state : DashboardState) (filteredPorts : List FlatEntry) : RenderState :=
  { filteredPorts := filteredPorts
    selectedIndex := state.selectedIndex
    filter := state.filter
    sortBy := state.sortBy
    showDetails := state.showDetails }

/-- `hasKillMessage` (dashboard-renderer.ts line 88): `state.killMessage !== null`. -/
def hasKillMessage (state : DashboardState) : Bool :=
  state.killMessage.isSome

/-- `isEnteringSearchMode` (dashboard-renderer.ts line 90):
`state.searching && searchBuffer === "" && state.filter === ""`. -/
def isEnteringSearchMode (state : DashboardState) (searchBuffer : String) : Bool :=
  state.searching && searchBuffer == "" && state.filter == ""

/-- `canUseDelta` (dashboard-renderer.ts lines 93-100). -/
def canUseDelta (state : DashboardState) (previousRenderState : Option RenderState)
    (searchBuffer : String) (current : RenderState) : Bool :=
  !hasKillMessage state && !isEnteringSearchMode state searchBuffer &&
    (match previousRenderState with
     | none => false
     | some p =>
       p.filteredPorts.length == current.filteredPorts.length &&
       p.filter == current.filter &&
       p.sortBy == current.sortBy &&
       p.showDetails == current.showDetails)

/-- `state.showHelp || state.showConfirm || state.showLogs || state.showCommand
|| state.showStats` (dashboard-renderer.ts lines 44-50). -/
def anyModal (state : DashboardState) : Bool :=
  state.showHelp || state.showConfirm || state.showLogs || state.showCommand ||
    state.showStats

/-- The three ways `DashboardRenderer.render` can draw a frame. -/
inductive RenderMode where
  | modal
  | delta
  | full
deriving DecidableEq

/-- The repaint decision taken by `DashboardRenderer.render` (lines 44-111). -/
def renderMode (state : DashboardState) (previousRenderState : Option RenderState)
    (searchBuffer : String) (filteredPorts : List FlatEntry) : RenderMode :=
  if anyModal state then .modal
  else if canUseDelta state previousRenderState searchBuffer
      (mkRenderState state filteredPorts) then .delta
  else .full

/-- Row comparison in `renderDelta` (dashboard-renderer.ts lines 144-151):
a row changed when any of the displayed port fields differ. -/
def rowChanged (prev curr : FlatEntry) : Bool :=
  prev.port.pid != curr.port.pid ||
  prev.port.port != curr.port.port ||
  prev.port.processName != curr.port.processName ||
  prev.port.command != curr.port.command ||
  prev.port.lifetime != curr.port.lifetime ||
  prev.port.type != curr.port.type

/-- `maxHeight = height - (state.showDetails ? 6 : 4)` (renderDelta line 126),
kept in `Int` because the JS subtraction can go negative. -/
def deltaMaxHeight (height : Nat) (showDetails : Bool) : Int :=
  (height : Int) - (if showDetails then 6 else 4)

/-- Whether the rows at position `i` of the two snapshots differ
(`none` on either side compares as unchanged; `renderDelta` only reads
positions below both lengths). -/
def rowChangedAt (previous current : RenderState) (i : Nat) : Bool :=
  match previous.filteredPorts.get? i, current.filteredPorts.get? i with
  | some a, some b => rowChanged a b
  | _, _ => false

/-- The `changedLines` set built by `renderDelta` (lines 129-154):
the two rows of a selection change plus every visible same-index row
whose displayed data differs, each offset by the header height 2. -/
def changedLines (previous current : RenderState) (state : DashboardState)
    (height : Nat) : Finset Int :=
  let maxHeight := deltaMaxHeight height state.showDetails
  let selLines : Finset Int :=
    if previous.selectedIndex ≠ current.selectedIndex then
      {previous.selectedIndex + 2, current.selectedIndex + 2}
    else ∅
  let minLength := min previous.filteredPorts.length current.filteredPorts.length
  selLines ∪
    ((Finset.range minLength).filter
      (fun (i : Nat) =>
        ((i : Int) + 2 < maxHeight) ∧ rowChangedAt previous current i = true)).image
      (fun (i : Nat) => (i : Int) + 2)

/-- The abandon-the-delta test of `renderDelta` (line 157):
`changedLines.size > maxHeight / 2`.  JS divides exactly, so the
integer comparison is written doubled. -/
def deltaAbandons (previous current : RenderState) (state : DashboardState)
    (height : Nat) : Bool :=
  2 * ((changedLines previous current state height).card : Int) >
    deltaMaxHeight height state.showDetails

/-- The expiry check at the top of `Dashboard.render` (dashboard.ts
lines 288-294).  JS tests `killMessage && killMessageExpiresAt`
truthily, so an expiry timestamp of `0` skips the branch. -/
def clearExpiredKillMessage (state : DashboardState) (now : Int) : DashboardState :=
  match state.killMessage, state.killMessageExpiresAt with
  | some _, some t =>
    if t ≠ 0 ∧ now > t then
      { state with killMessage := none, killMessageExpiresAt := none }
    else state
  | _, _ => state

/-- The toast the frame drawn by `Dashboard.render` at time `now`
displays: the renderer runs on the state after the expiry sweep. -/
def renderedToast (state : DashboardState) (now : Int) : Option KillMsg :=
  (clearExpiredKillMessage state now).killMessage

/-- JS `str.split(sep)` for a one-character separator, on character
lists: `"" ↦ [""]`, consecutive separators produce empty pieces. -/
def splitOnChar (sep : Char) : List Char → List (List Char)
  | [] => [[]]
  | c :: rest =>
    let r := splitOnChar sep rest
    if c = sep then [] :: r
    else
      match r with
      | [] => [[c]]
      | h :: t => (c :: h) :: t

/-- Structural helper for `strChunks`: the first argument is a fuel
bound on the recursion depth, instantiated with the character count so
that the definition reduces by iota; with a positive width the fuel
never runs out. -/
def strChunksFuel : Nat → List Char → Nat → List (List Char)
  | 0, _, _ => []
  | n + 1, cs, w =>
    if w = 0 then []
    else if cs = [] then []
    else cs.take w :: strChunksFuel n (cs.drop w) w

/-- The width-sized chunks of `word.substring(i, i + maxWidth)` cut by
the inner loop of `renderCommand` (dashboard-renderer.ts lines 581-588). -/
def strChunks (cs : List Char) (w : Nat) : List (List Char) :=
  strChunksFuel cs.length cs w

/-- The chunk-emission loop of `renderCommand` (lines 581-588): emit a
chunk, advance `y`, and break out of the chunk loop once
`y >= height - 2`.  Returns the emitted lines and the final `y`. -/
def emitChunks (chunkList : List (List Char)) (y h : Nat) :
    List (List Char) × Nat :=
  match chunkList with
  | [] => ([], y)
  | c :: rest =>
    if y + 1 ≥ h - 2 then ([c], y + 1)
    else
      let p := emitChunks rest (y + 1) h
      (c :: p.1, p.2)

/-- The word loop of `renderCommand` (dashboard-renderer.ts lines
561-594): greedily grow `currentLine`; on overflow flush it (breaking
out of the whole loop once `y >= height - 2`), then either hard-split
an over-wide word into chunks or start the next line with it.  Returns
the emitted lines, the final `y` and the residual `currentLine`. -/
def wrapLoop (w h : Nat) :
    List (List Char) → Nat → List Char → List (List Char) × Nat × List Char
  | [], y, cur => ([], y, cur)
  | word :: rest, y, cur =>
    let testLine := if cur = [] then word else cur ++ [' '] ++ word
    if testLine.length ≤ w then
      wrapLoop w h rest y testLine
    else if cur = [] then
      if word.length > w then
        let p := emitChunks (strChunks word w) y h
        let q := wrapLoop w h rest p.2 []
        (p.1 ++ q.1, q.2.1, q.2.2)
      else
        wrapLoop w h rest y word
    else if y + 1 ≥ h - 2 then
      ([cur], y + 1, cur)
    else if word.length > w then
      let p := emitChunks (strChunks word w) (y + 1) h
      let q := wrapLoop w h rest p.2 []
      (cur :: (p.1 ++ q.1), q.2.1, q.2.2)
    else
      let q := wrapLoop w h rest (y + 1) word
      (cur :: q.1, q.2.1, q.2.2)

/-- The full word-wrap of `renderCommand` (dashboard-renderer.ts lines
551-602): split on spaces, run the word loop starting at row 2, then
flush the residual line when it is nonempty and still on screen. -/
def wrapCommandLines (command : List Char) (w h : Nat) : List (List Char) :=
  let r := wrapLoop w h (splitOnChar ' ' command) 2 []
  if r.2.2 ≠ [] ∧ r.2.1 < h - 2 then r.1 ++ [r.2.2] else r.1

/-- Spec-side inclusion test of §3: a port is kept when the filter is
empty, or the filter is a substring of the port number's decimal
representation, or a case-insensitive substring of the process name or
of the command (OR semantics). -/
def filterKeep (filter : String) (p : PortInfo) : Bool :=
  filter == "" || portMatch filter p || processMatch filter p || commandMatch filter p

/-- Spec-side description of the flattened list: groups in order,
collapsed groups skipped entirely, each visible group contributing its
ports in order, filtered by `filterKeep`. -/
def flatSpec (state : DashboardState) (groups : List PortGroup) : List FlatEntry :=
  (groups.filter (fun g => !g.collapsed)).flatMap
    (fun g => (g.ports.filter (fun p => filterKeep state.filter p)).map
      (fun p => ⟨p, g⟩))

/-- The `DeltaRepaint` eligibility exactly as the claim words it: a
previous snapshot exists, no toast, not the instant of entering search
mode with an empty buffer, and the two snapshots agree on list length,
filter, sort key and details flag. -/
def claimDeltaEligible (state : DashboardState) (prev : Option RenderState)
    (searchBuffer : String) (current : RenderState) : Prop :=
  match prev with
  | none => False
  | some p =>
    state.killMessage = none ∧
    ¬(state.searching = true ∧ searchBuffer = "") ∧
    p.filteredPorts.length = current.filteredPorts.length ∧
    p.filter = current.filter ∧
    p.sortBy = current.sortBy ∧
    p.showDetails = current.showDetails

instance (state : DashboardState) (prev : Option RenderState) (searchBuffer : String)
    (current : RenderState) :
    Decidable (claimDeltaEligible state prev searchBuffer current) := by
  unfold claimDeltaEligible
  cases prev <;> infer_instance

/-- The changed-row set exactly as the claim words it: the two rows of
a selection change plus EVERY same-index row pair with differing
displayed fields, with no visible-row restriction. -/
def claimChangedLines (previous current : RenderState) : Finset Int :=
  let selLines : Finset Int :=
    if previous.selectedIndex ≠ current.selectedIndex then
      {previous.selectedIndex + 2, current.selectedIndex + 2}
    else ∅
  let minLength := min previous.filteredPorts.length current.filteredPorts.length
  selLines ∪
    ((Finset.range minLength).filter
      (fun (i : Nat) => rowChangedAt previous current i = true)).image
      (fun (i : Nat) => (i : Int) + 2)

/-- The abandonment decision as the claim words it, over the
unrestricted changed-row set. -/
def claimDeltaAbandons (previous current : RenderState) (state : DashboardState)
    (height : Nat) : Bool :=
  2 * ((claimChangedLines previous current).card : Int) >
    deltaMaxHeight height state.showDetails

/-! Concrete sample data for witnesses and counterexamples. -/

def samplePort (n pid : Nat) : PortInfo :=
  ⟨n, pid, "node", "node server.js", "root", "TCP", none, none⟩

def sampleGroup : PortGroup :=
  ⟨"dev", "dev-server", false, [samplePort 3000 1]⟩

def sampleEntry (n pid : Nat) : FlatEntry :=
  ⟨samplePort n pid, sampleGroup⟩

def fiveEntries : List FlatEntry :=
  [sampleEntry 3000 1, sampleEntry 3001 2, sampleEntry 3002 3,
   sampleEntry 3003 4, sampleEntry 3004 5]

def baseState : DashboardState :=
  { selectedIndex := 0
    filter := ""
    showHelp := false
    showConfirm := false
    showLogs := false
    showCommand := false
    showStats := false
    sortBy := "port"
    showDetails := true
    searching := false
    killMessage := none
    killMessageExpiresAt := none }

/-! ## C1: `adjustSelectedIndex` clamping -/

/-- C1 counterexample: the claim quantifies over every current index,
but `adjustSelectedIndex` returns a negative index unchanged on a
non-empty list, so the clamped-range conclusion fails at index `-1`. -/
theorem adjustSelectedIndex_negative_counterexample :
    adjustSelectedIndex [sampleEntry 3000 1] (-1) = -1 ∧
    ¬((0 ≤ adjustSelectedIndex [sampleEntry 3000 1] (-1) ∧
        adjustSelectedIndex [sampleEntry 3000 1] (-1) <
          (([sampleEntry 3000 1] : List FlatEntry).length : Int)) ∨
      (([sampleEntry 3000 1] : List FlatEntry) = [] ∧
        adjustSelectedIndex [sampleEntry 3000 1] (-1) = 0)) := by
  decide

/-- C1 (amended): for every list and every non-negative current index,
`adjustSelectedIndex` lands in `[0, length)` (or is `0` on the empty
list); an index `≥ length` is clamped to `length - 1` (or `0` when
empty) and a smaller one is returned unchanged. -/
theorem adjustSelectedIndex_clamps (l : List FlatEntry) (i : Int) (hi : 0 ≤ i) :
    ((0 ≤ adjustSelectedIndex l i ∧ adjustSelectedIndex l i < (l.length : Int)) ∨
      (l = [] ∧ adjustSelectedIndex l i = 0)) ∧
    ((l.length : Int) ≤ i → adjustSelectedIndex l i = max 0 ((l.length : Int) - 1)) ∧
    (i < (l.length : Int) → adjustSelectedIndex l i = i) := by
  by_cases hl : l = []
  · subst hl
    have h0 : adjustSelectedIndex ([] : List FlatEntry) i = 0 := by
      unfold adjustSelectedIndex
      simp only [List.length_nil, Nat.cast_zero]
      rw [if_pos hi]
      decide
    refine ⟨Or.inr ⟨rfl, h0⟩, fun _ => ?_, fun hlt => ?_⟩
    · rw [h0]; simp only [List.length_nil, Nat.cast_zero]; decide
    · exact absurd hlt (by simp only [List.length_nil, Nat.cast_zero]; omega)
  · unfold adjustSelectedIndex
    have hlen : 0 < l.length := List.length_pos.mpr hl
    have hlen' : 1 ≤ (l.length : Int) := by exact_mod_cast hlen
    have hmax : max (0 : Int) ((l.length : Int) - 1) = (l.length : Int) - 1 :=
      max_eq_right (by omega)
    refine ⟨?_, fun hge => ?_, fun hlt => ?_⟩
    · split_ifs with h0
      · left; rw [hmax]; omega
      · left; omega
    · split_ifs with h0
      · rfl
      · omega
    · split_ifs with h0
      · omega
      · rfl

/-- C1 amended-claim witness at a concrete list and index. -/
theorem adjustSelectedIndex_clamps_witness :
    (0 ≤ (7 : Int)) ∧
    (((0 ≤ adjustSelectedIndex fiveEntries 7 ∧
        adjustSelectedIndex fiveEntries 7 < (fiveEntries.length : Int)) ∨
      (fiveEntries = [] ∧ adjustSelectedIndex fiveEntries 7 = 0)) ∧
    ((fiveEntries.length : Int) ≤ 7 →
      adjustSelectedIndex fiveEntries 7 = max 0 ((fiveEntries.length : Int) - 1)) ∧
    (7 < (fiveEntries.length : Int) → adjustSelectedIndex fiveEntries 7 = 7)) :=
  ⟨by decide, adjustSelectedIndex_clamps fiveEntries 7 (by decide)⟩

/-! ## C9: `moveSelection` wrap-around -/

/-- C9: `moveSelection` is a no-op on the empty list and wraps around
both ends of a non-empty list: delta `-1` from index `0` lands on the
last index, delta `+1` from the last index lands on `0`. -/
theorem moveSelection_wraps (l : List FlatEntry) (i d : Int) :
    (l = [] → moveSelection l i d = i) ∧
    (l ≠ [] →
      moveSelection l 0 (-1) = (l.length : Int) - 1 ∧
      moveSelection l ((l.length : Int) - 1) 1 = 0) := by
  constructor
  · intro h; subst h; simp [moveSelection]
  · intro h
    have hlen : 0 < l.length := List.length_pos.mpr h
    have hlen' : 1 ≤ (l.length : Int) := by exact_mod_cast hlen
    simp only [moveSelection]
    constructor
    · split_ifs <;> omega
    · split_ifs <;> omega

/-- C9 witness on a concrete 5-item list: `0` with delta `-1` wraps to
`4` and `4` with delta `+1` wraps to `0`. -/
theorem moveSelection_wraps_witness :
    fiveEntries ≠ [] ∧
    (moveSelection fiveEntries 0 (-1) = (fiveEntries.length : Int) - 1 ∧
     moveSelection fiveEntries ((fiveEntries.length : Int) - 1) 1 = 0) :=
  ⟨by decide, (moveSelection_wraps fiveEntries 0 1).2 (by decide)⟩

/-! ## C10: `getSelectedPort` totality and clamping -/

/-- C10: `getSelectedPort` is total: `none` on the empty list, the
element at the index when the index is in range, the last element when
the index is at least the length, and `none` for a negative index. -/
theorem getSelectedPort_spec (l : List FlatEntry) (i : Int) :
    (l = [] → getSelectedPort l i = none) ∧
    (0 ≤ i → i < (l.length : Int) →
      getSelectedPort l i = l[i.toNat]? ∧ (getSelectedPort l i).isSome = true) ∧
    (l ≠ [] → (l.length : Int) ≤ i → getSelectedPort l i = l.getLast?) ∧
    (l ≠ [] → i < 0 → getSelectedPort l i = none) := by
  refine ⟨fun h => ?_, fun h0 hlt => ?_, fun h hge => ?_, fun h hneg => ?_⟩
  · subst h; simp [getSelectedPort]
  · have hlen0 : ¬l.length = 0 := by omega
    have ht : i.toNat < l.length := by omega
    have heq : getSelectedPort l i = l[i.toNat]? := by
      unfold getSelectedPort jsGetElem
      rw [if_neg hlen0, min_eq_left (by omega : i ≤ (l.length : Int) - 1),
        if_neg (by omega : ¬i < 0)]
    exact ⟨heq, by rw [heq]; simp [List.getElem?_eq_getElem ht]⟩
  · have hlen : 0 < l.length := List.length_pos.mpr h
    have hlen' : 1 ≤ (l.length : Int) := by exact_mod_cast hlen
    have htn : ((l.length : Int) - 1).toNat = l.length - 1 := by omega
    unfold getSelectedPort jsGetElem
    rw [if_neg (by omega : ¬l.length = 0),
      min_eq_right (by omega : (l.length : Int) - 1 ≤ i),
      if_neg (by omega : ¬(l.length : Int) - 1 < 0), htn]
    exact (List.getLast?_eq_getElem? l).symm
  · have hlen : 0 < l.length := List.length_pos.mpr h
    have hlen' : 1 ≤ (l.length : Int) := by exact_mod_cast hlen
    unfold getSelectedPort jsGetElem
    rw [if_neg (by omega : ¬l.length = 0),
      min_eq_left (by omega : i ≤ (l.length : Int) - 1),
      if_pos hneg]

/-- C10 witness: the in-range case at a concrete list and index. -/
theorem getSelectedPort_spec_witness :
    (0 ≤ (2 : Int)) ∧ ((2 : Int) < (fiveEntries.length : Int)) ∧
    (getSelectedPort fiveEntries 2 = fiveEntries[(2 : Int).toNat]? ∧
      (getSelectedPort fiveEntries 2).isSome = true) :=
  ⟨by decide, by decide,
    (getSelectedPort_spec fiveEntries 2).2.1 (by decide) (by decide)⟩

/-! ## The filtered-ports cache: C3, C4, C5 -/

/-- The cache object built by the miss path of `getFilteredPorts`. -/
def freshCache (state : DashboardState) (groups : List PortGroup) : FilteredPortsCache :=
  ⟨computeFlat state groups, state.filter, groupsHash groups, state.sortBy⟩

theorem getFilteredPorts_none (state : DashboardState) (groups : List PortGroup) :
    getFilteredPorts state groups none =
      (computeFlat state groups, some (freshCache state groups)) := rfl

theorem getFilteredPorts_some_of_hit {state : DashboardState} {groups : List PortGroup}
    {c : FilteredPortsCache} (h : cacheHit state groups c) :
    getFilteredPorts state groups (some c) = (c.result, some c) := by
  show (if cacheHit state groups c then (c.result, some c) else _) = _
  rw [if_pos h]

theorem getFilteredPorts_some_of_miss {state : DashboardState} {groups : List PortGroup}
    {c : FilteredPortsCache} (h : ¬cacheHit state groups c) :
    getFilteredPorts state groups (some c) =
      (computeFlat state groups, some (freshCache state groups)) := by
  show (if cacheHit state groups c then (c.result, some c) else _) = _
  rw [if_neg h]
  rfl

theorem cacheHit_freshCache (state : DashboardState) (groups : List PortGroup) :
    cacheHit state groups (freshCache state groups) := ⟨rfl, rfl, rfl⟩

/-- `computeFlat` reads the state only through its `filter` field. -/
theorem computeFlat_filter_congr {s₁ s₂ : DashboardState} (groups : List PortGroup)
    (h : s₁.filter = s₂.filter) : computeFlat s₁ groups = computeFlat s₂ groups := by
  unfold computeFlat
  rw [h]

/-- `innerStep` keeps exactly the ports accepted by `filterKeep`. -/
theorem innerStep_eq (filter : String) (g : PortGroup) (flat : List FlatEntry)
    (p : PortInfo) :
    innerStep filter g flat p =
      if filterKeep filter p = true then flat ++ [(⟨p, g⟩ : FlatEntry)] else flat := by
  unfold innerStep filterKeep
  by_cases hf : filter = ""
  · subst hf; simp
  · rw [if_pos hf]
    have hb : (filter == "") = false := by simpa using hf
    cases hpm : portMatch filter p <;> cases hpr : processMatch filter p <;>
      cases hcm : commandMatch filter p <;> simp [hb, hpm, hpr, hcm]

/-- The inner port loop appends exactly the kept ports, in order. -/
theorem inner_foldl (filter : String) (g : PortGroup) (ps : List PortInfo) :
    ∀ acc : List FlatEntry,
      ps.foldl (innerStep filter g) acc =
        acc ++ (ps.filter (fun p => filterKeep filter p)).map
          (fun p => (⟨p, g⟩ : FlatEntry)) := by
  induction ps with
  | nil => intro acc; simp
  | cons p ps ih =>
    intro acc
    rw [List.foldl_cons, innerStep_eq]
    by_cases hk : filterKeep filter p = true
    · rw [if_pos hk, ih]
      simp [List.filter_cons, hk]
    · rw [if_neg hk, ih]
      simp [List.filter_cons, hk]

/-- One outer step appends exactly the visible kept ports of a group. -/
theorem outerStep_eq (filter : String) (acc : List FlatEntry) (g : PortGroup) :
    outerStep filter acc g =
      acc ++ (if g.collapsed then []
        else (g.ports.filter (fun p => filterKeep filter p)).map
          (fun p => (⟨p, g⟩ : FlatEntry))) := by
  unfold outerStep
  cases hc : g.collapsed <;> simp [hc, inner_foldl]

/-- The miss-path recomputation agrees with the spec-side description
of the flattened list. -/
theorem computeFlat_eq_flatSpec (state : DashboardState) (groups : List PortGroup) :
    computeFlat state groups = flatSpec state groups := by
  suffices h : ∀ acc : List FlatEntry,
      groups.foldl (outerStep state.filter) acc = acc ++ flatSpec state groups by
    simpa [computeFlat] using h []
  induction groups with
  | nil => intro acc; simp [flatSpec]
  | cons g gs ih =>
    intro acc
    rw [List.foldl_cons, outerStep_eq, ih]
    cases hc : g.collapsed <;>
      simp [flatSpec, List.filter_cons, hc, List.append_assoc]

/-- Cache-miss condition: no cache, or a fingerprint mismatch. -/
def cacheMiss (state : DashboardState) (groups : List PortGroup)
    (cache : Option FilteredPortsCache) : Prop :=
  match cache with
  | none => True
  | some c => ¬cacheHit state groups c

/-- C5: on a cache miss, `getFilteredPorts` returns exactly the ports
obtained by walking the groups in order, skipping collapsed groups,
keeping per-group port order, and filtering with the OR-substring
semantics over port number, process name and command. -/
theorem getFilteredPorts_miss_spec (state : DashboardState) (groups : List PortGroup)
    (cache : Option FilteredPortsCache) (h : cacheMiss state groups cache) :
    (getFilteredPorts state groups cache).1 = flatSpec state groups := by
  cases cache with
  | none =>
    rw [getFilteredPorts_none]
    exact computeFlat_eq_flatSpec state groups
  | some c =>
    have h' : ¬cacheHit state groups c := h
    rw [getFilteredPorts_some_of_miss h']
    exact computeFlat_eq_flatSpec state groups

def filterState : DashboardState := { baseState with filter := "300" }

def collapsedGroup : PortGroup := ⟨"db", "database", true, [samplePort 5432 9]⟩

def witnessGroups : List PortGroup := [sampleGroup, collapsedGroup]

/-- C5 witness: with filter `"300"`, a visible group with port `3000`
and a collapsed group, the miss path keeps exactly the matching port of
the visible group. -/
theorem getFilteredPorts_miss_spec_witness :
    cacheMiss filterState witnessGroups none ∧
    (getFilteredPorts filterState witnessGroups none).1 =
      flatSpec filterState witnessGroups ∧
    (getFilteredPorts filterState witnessGroups none).1 =
      [⟨samplePort 3000 1, sampleGroup⟩] :=
  ⟨trivial, getFilteredPorts_miss_spec filterState witnessGroups none trivial,
    by decide⟩

/-- A cache whose fingerprint matches `baseState`/`[sampleGroup]` but
whose stored result was never computed from them. -/
def forgedCache : FilteredPortsCache := ⟨[], "", groupsHash [sampleGroup], "port"⟩

/-- C3 counterexample: the claim quantifies over every cache, but a
cache whose fingerprint matches while its stored list does not is
returned verbatim on the hit path, differing from a fresh computation. -/
theorem getFilteredPorts_hit_stale_counterexample :
    cacheHit baseState [sampleGroup] forgedCache ∧
    (getFilteredPorts baseState [sampleGroup] (some forgedCache)).1 ≠
      computeFlat baseState [sampleGroup] := by
  constructor
  · exact ⟨rfl, rfl, rfl⟩
  · decide

/-- C3 (amended): when the incoming cache was itself produced by
`getFilteredPorts` over the same group list, a cache hit returns a
list identical to the one a fresh (uncached) computation over the same
state and groups produces. -/
theorem getFilteredPorts_hit_eq_fresh (s₀ s : DashboardState) (groups : List PortGroup) :
    (getFilteredPorts s groups (getFilteredPorts s₀ groups none).2).1 =
      (getFilteredPorts s groups none).1 := by
  simp only [getFilteredPorts_none]
  show (getFilteredPorts s groups (some (freshCache s₀ groups))).1 = computeFlat s groups
  by_cases hhit : cacheHit s groups (freshCache s₀ groups)
  · rw [getFilteredPorts_some_of_hit hhit]
    show computeFlat s₀ groups = computeFlat s groups
    exact computeFlat_filter_congr groups hhit.1
  · rw [getFilteredPorts_some_of_miss hhit]

/-- C4: after any call, the returned cache's fingerprint matches, so an
immediately repeated call with unchanged inputs takes the hit path and
hands back the stored list and the very same cache, without
recomputation. -/
theorem getFilteredPorts_idempotent (s : DashboardState) (groups : List PortGroup)
    (c₀ : Option FilteredPortsCache) :
    ∃ c : FilteredPortsCache,
      (getFilteredPorts s groups c₀).2 = some c ∧
      c.result = (getFilteredPorts s groups c₀).1 ∧
      cacheHit s groups c ∧
      getFilteredPorts s groups (some c) = (c.result, some c) := by
  cases c₀ with
  | none =>
    exact ⟨freshCache s groups, rfl, rfl, cacheHit_freshCache s groups,
      getFilteredPorts_some_of_hit (cacheHit_freshCache s groups)⟩
  | some c =>
    by_cases hhit : cacheHit s groups c
    · refine ⟨c, ?_, ?_, hhit, getFilteredPorts_some_of_hit hhit⟩
      · rw [getFilteredPorts_some_of_hit hhit]
      · rw [getFilteredPorts_some_of_hit hhit]
    · refine ⟨freshCache s groups, ?_, ?_, cacheHit_freshCache s groups,
        getFilteredPorts_some_of_hit (cacheHit_freshCache s groups)⟩
      · rw [getFilteredPorts_some_of_miss hhit]
      · rw [getFilteredPorts_some_of_miss hhit]
        rfl

/-! ## C2: the delta-vs-full repaint decision -/

/-- `DeltaRepaint` eligibility amended to match the code: the
entering-search exemption additionally requires an empty filter. -/
def amendedDeltaEligible (state : DashboardState) (prev : Option RenderState)
    (searchBuffer : String) (current : RenderState) : Prop :=
  match prev with
  | none => False
  | some p =>
    state.killMessage = none ∧
    ¬(state.searching = true ∧ searchBuffer = "" ∧ state.filter = "") ∧
    p.filteredPorts.length = current.filteredPorts.length ∧
    p.filter = current.filter ∧
    p.sortBy = current.sortBy ∧
    p.showDetails = current.showDetails

instance (state : DashboardState) (prev : Option RenderState) (searchBuffer : String)
    (current : RenderState) :
    Decidable (amendedDeltaEligible state prev searchBuffer current) := by
  unfold amendedDeltaEligible
  cases prev <;> infer_instance

/-- A state at the instant of entering search mode while a filter text
is still applied. -/
def searchState : DashboardState := { baseState with searching := true, filter := "8" }

/-- A previous snapshot agreeing with `searchState` on length, filter,
sort key and details flag. -/
def searchPrev : RenderState :=
  { filteredPorts := [], selectedIndex := 0, filter := "8", sortBy := "port",
    showDetails := true }

/-- C2 counterexample: at the instant of entering search mode with an
empty buffer but a non-empty filter, the code still chooses
`DeltaRepaint` (its exemption also requires `filter === ""`), while the
claim's conditions demand a full repaint. -/
theorem renderMode_search_counterexample :
    renderMode searchState (some searchPrev) "" [] = RenderMode.delta ∧
    ¬claimDeltaEligible searchState (some searchPrev) ""
      (mkRenderState searchState []) := by
  decide

/-- `canUseDelta` is exactly the amended eligibility predicate. -/
theorem canUseDelta_iff (state : DashboardState) (prev : Option RenderState)
    (buffer : String) (current : RenderState) :
    canUseDelta state prev buffer current = true ↔
      amendedDeltaEligible state prev buffer current := by
  cases prev with
  | none => simp [canUseDelta, amendedDeltaEligible]
  | some p =>
    simp only [canUseDelta, amendedDeltaEligible, hasKillMessage, isEnteringSearchMode,
      Bool.and_eq_true, Bool.not_eq_true']
    cases hkm : state.killMessage <;> cases hs : state.searching <;>
      simp_all <;> tauto

/-- C2 (amended): with no modal flag set, the renderer chooses
`DeltaRepaint` iff a previous snapshot exists, no toast is active, the
state is not at the instant of entering search mode with an empty
buffer and an empty filter, and the snapshots agree on list length,
filter, sort key and details flag. -/
theorem renderMode_delta_iff (state : DashboardState) (prev : Option RenderState)
    (buffer : String) (filteredPorts : List FlatEntry)
    (hmodal : anyModal state = false) :
    renderMode state prev buffer filteredPorts = RenderMode.delta ↔
      amendedDeltaEligible state prev buffer (mkRenderState state filteredPorts) := by
  have h1 : renderMode state prev buffer filteredPorts =
      (if canUseDelta state prev buffer (mkRenderState state filteredPorts) then
        RenderMode.delta else RenderMode.full) := by
    unfold renderMode
    rw [hmodal]
    simp
  rw [h1, ← canUseDelta_iff state prev buffer (mkRenderState state filteredPorts)]
  cases hc : canUseDelta state prev buffer (mkRenderState state filteredPorts) <;>
    simp [hc]

/-- C2 amended-claim witness at a concrete eligible input. -/
theorem renderMode_delta_iff_witness :
    anyModal baseState = false ∧
    (renderMode baseState (some (mkRenderState baseState [])) "x" [] =
        RenderMode.delta ↔
      amendedDeltaEligible baseState (some (mkRenderState baseState [])) "x"
        (mkRenderState baseState [])) :=
  ⟨by decide, renderMode_delta_iff baseState (some (mkRenderState baseState [])) "x" []
    (by decide)⟩

/-! ## C6: the delta changed-row set and the abandonment rule -/

/-- Snapshot data for the C6 counterexample: eight rows, of which the
four off-screen ones (for height 10 without details) change pid. -/
def prevPorts6 : List FlatEntry :=
  (List.range 8).map (fun i => sampleEntry (4000 + i) (100 + i))

def currPorts6 : List FlatEntry :=
  (List.range 8).map
    (fun i => if i < 4 then sampleEntry (4000 + i) (100 + i)
      else sampleEntry (4000 + i) (200 + i))

def prevRS6 : RenderState := ⟨prevPorts6, 0, "", "port", false⟩

def currRS6 : RenderState := ⟨currPorts6, 0, "", "port", false⟩

def state6 : DashboardState := { baseState with showDetails := false }

/-- C6 counterexample: rows 4-7 differ but sit below the visible row
budget, so the code's changed-row set is empty and the delta proceeds,
while the claim's unrestricted set has four rows and demands a full
repaint. -/
theorem renderDelta_offscreen_counterexample :
    deltaAbandons prevRS6 currRS6 state6 10 = false ∧
    claimDeltaAbandons prevRS6 currRS6 state6 10 = true ∧
    changedLines prevRS6 currRS6 state6 10 ≠ claimChangedLines prevRS6 currRS6 := by
  decide

/-- C6 (amended): the changed-line set holds exactly the two rows of a
selection change plus every same-index row pair, within the visible
row budget, whose displayed fields differ; the delta is abandoned for
a full repaint exactly when the set exceeds half the row budget. -/
theorem changedLines_spec (previous current : RenderState) (state : DashboardState)
    (height : Nat) :
    (∀ n : Int,
      n ∈ changedLines previous current state height ↔
        ((previous.selectedIndex ≠ current.selectedIndex ∧
            (n = previous.selectedIndex + 2 ∨ n = current.selectedIndex + 2)) ∨
          (∃ i : Nat,
            i < min previous.filteredPorts.length current.filteredPorts.length ∧
            (i : Int) + 2 < deltaMaxHeight height state.showDetails ∧
            rowChangedAt previous current i = true ∧
            n = (i : Int) + 2))) ∧
    (deltaAbandons previous current state height = true ↔
      2 * ((changedLines previous current state height).card : Int) >
        deltaMaxHeight height state.showDetails) := by
  constructor
  · intro n
    by_cases hsel : previous.selectedIndex ≠ current.selectedIndex
    · simp only [changedLines, if_pos hsel, Finset.mem_union, Finset.mem_insert,
        Finset.mem_singleton, Finset.mem_image, Finset.mem_filter, Finset.mem_range]
      constructor
      · rintro (h | ⟨i, ⟨hi, hvis, hrow⟩, hn⟩)
        · exact Or.inl ⟨hsel, h⟩
        · exact Or.inr ⟨i, hi, hvis, hrow, hn.symm⟩
      · rintro (⟨_, h⟩ | ⟨i, hi, hvis, hrow, hn⟩)
        · exact Or.inl h
        · exact Or.inr ⟨i, ⟨hi, hvis, hrow⟩, hn.symm⟩
    · simp only [changedLines, if_neg hsel, Finset.empty_union, Finset.mem_image,
        Finset.mem_filter, Finset.mem_range]
      constructor
      · rintro ⟨i, ⟨hi, hvis, hrow⟩, hn⟩
        exact Or.inr ⟨i, hi, hvis, hrow, hn.symm⟩
      · rintro (⟨hcontra, _⟩ | ⟨i, hi, hvis, hrow, hn⟩)
        · exact absurd hcontra hsel
        · exact ⟨i, ⟨hi, hvis, hrow⟩, hn.symm⟩
  · simp [deltaAbandons]

/-! ## C8: toast expiry -/

def sampleToast : KillMsg := ⟨"Killed port 3000", none, none⟩

def zeroExpiryState : DashboardState :=
  { baseState with killMessage := some sampleToast, killMessageExpiresAt := some 0 }

/-- C8 counterexample: with the expiry timestamp set to `0` the JS
truthiness guard skips the sweep, so a render tick at `now = 1 > 0`
still draws the toast. -/
theorem killMessage_zero_expiry_counterexample :
    zeroExpiryState.killMessage = some sampleToast ∧
    zeroExpiryState.killMessageExpiresAt = some 0 ∧
    (1 : Int) > 0 ∧
    renderedToast zeroExpiryState 1 = some sampleToast := by
  decide

/-- C8 (amended): whenever `killMessage` is set and
`killMessageExpiresAt` is set to a nonzero timestamp, a render tick
observing `now > killMessageExpiresAt` clears both fields before the
frame is drawn, so the drawn frame carries no toast. -/
theorem killMessage_cleared_when_expired (state : DashboardState) (m : KillMsg)
    (t now : Int) (hm : state.killMessage = some m)
    (ht : state.killMessageExpiresAt = some t) (htz : t ≠ 0) (hnow : now > t) :
    (clearExpiredKillMessage state now).killMessage = none ∧
    (clearExpiredKillMessage state now).killMessageExpiresAt = none ∧
    renderedToast state now = none := by
  have h : clearExpiredKillMessage state now =
      { state with killMessage := none, killMessageExpiresAt := none } := by
    simp only [clearExpiredKillMessage, hm, ht]
    rw [if_pos ⟨htz, hnow⟩]
  refine ⟨?_, ?_, ?_⟩ <;> simp [renderedToast, h]

def expiredState : DashboardState :=
  { baseState with killMessage := some sampleToast, killMessageExpiresAt := some 100 }

/-- C8 witness: a toast created with expiry `100` is gone on the render
tick at `now = 150`. -/
theorem killMessage_cleared_when_expired_witness :
    expiredState.killMessage = some sampleToast ∧
    expiredState.killMessageExpiresAt = some 100 ∧
    (100 : Int) ≠ 0 ∧ (150 : Int) > 100 ∧
    ((clearExpiredKillMessage expiredState 150).killMessage = none ∧
      (clearExpiredKillMessage expiredState 150).killMessageExpiresAt = none ∧
      renderedToast expiredState 150 = none) :=
  ⟨rfl, rfl, by decide, by decide,
    killMessage_cleared_when_expired expiredState sampleToast 100 150 rfl rfl
      (by decide) (by decide)⟩

/-! ## C7: the command-view word wrap -/

/-- Every chunk cut by `strChunksFuel` has length at most the width. -/
theorem strChunksFuel_length_le :
    ∀ (n : Nat) (cs : List Char) (w : Nat),
      ∀ c ∈ strChunksFuel n cs w, c.length ≤ w := by
  intro n
  induction n with
  | zero =>
    intro cs w c hc
    simp [strChunksFuel] at hc
  | succ n ih =>
    intro cs w c hc
    simp only [strChunksFuel] at hc
    split_ifs at hc with hw hl
    · exact absurd hc (List.not_mem_nil c)
    · exact absurd hc (List.not_mem_nil c)
    · rcases List.mem_cons.mp hc with h | h
      · subst h
        simp
      · exact ih (cs.drop w) w c h

theorem strChunks_length_le (cs : List Char) (w : Nat) :
    ∀ c ∈ strChunks cs w, c.length ≤ w :=
  strChunksFuel_length_le cs.length cs w

/-- The chunk-emission loop only emits chunks of its input list. -/
theorem emitChunks_mem :
    ∀ (L : List (List Char)) (y h : Nat), ∀ s ∈ (emitChunks L y h).1, s ∈ L := by
  intro L
  induction L with
  | nil => intro y h s hs; simp [emitChunks] at hs
  | cons c rest ih =>
    intro y h s hs
    simp only [emitChunks] at hs
    split_ifs at hs with hy
    · simp at hs
      subst hs
      exact List.mem_cons_self _ _
    · rcases List.mem_cons.mp hs with h1 | h1
      · subst h1
        exact List.mem_cons_self _ _
      · exact List.mem_cons_of_mem c (ih (y + 1) h s h1)

theorem emitChunks_length_le {w : Nat} {L : List (List Char)}
    (hL : ∀ c ∈ L, c.length ≤ w) (y h : Nat) :
    ∀ s ∈ (emitChunks L y h).1, s.length ≤ w :=
  fun s hs => hL s (emitChunks_mem L y h s hs)

/-- Step equation of `wrapLoop` for an empty current line. -/
theorem wrapLoop_cons_nil (w h : Nat) (word : List Char) (rest : List (List Char))
    (y : Nat) :
    wrapLoop w h (word :: rest) y [] =
      if word.length ≤ w then wrapLoop w h rest y word
      else if word.length > w then
        ((emitChunks (strChunks word w) y h).1 ++
            (wrapLoop w h rest (emitChunks (strChunks word w) y h).2 []).1,
          (wrapLoop w h rest (emitChunks (strChunks word w) y h).2 []).2.1,
          (wrapLoop w h rest (emitChunks (strChunks word w) y h).2 []).2.2)
      else wrapLoop w h rest y word := by
  simp [wrapLoop]

/-- Step equation of `wrapLoop` for a non-empty current line. -/
theorem wrapLoop_cons_cons (w h : Nat) (word cur : List Char)
    (rest : List (List Char)) (y : Nat) (hcur : cur ≠ []) :
    wrapLoop w h (word :: rest) y cur =
      if (cur ++ [' '] ++ word).length ≤ w then
        wrapLoop w h rest y (cur ++ [' '] ++ word)
      else if y + 1 ≥ h - 2 then ([cur], y + 1, cur)
      else if word.length > w then
        (cur :: ((emitChunks (strChunks word w) (y + 1) h).1 ++
            (wrapLoop w h rest (emitChunks (strChunks word w) (y + 1) h).2 []).1),
          (wrapLoop w h rest (emitChunks (strChunks word w) (y + 1) h).2 []).2.1,
          (wrapLoop w h rest (emitChunks (strChunks word w) (y + 1) h).2 []).2.2)
      else
        (cur :: (wrapLoop w h rest (y + 1) word).1,
          (wrapLoop w h rest (y + 1) word).2.1,
          (wrapLoop w h rest (y + 1) word).2.2) := by
  simp [wrapLoop, hcur]

/-- The word loop never emits a line longer than the width, and its
residual current line stays within the width as well. -/
theorem wrapLoop_length_le (w h : Nat) :
    ∀ (words : List (List Char)) (y : Nat) (cur : List Char), cur.length ≤ w →
      (∀ l ∈ (wrapLoop w h words y cur).1, l.length ≤ w) ∧
      (wrapLoop w h words y cur).2.2.length ≤ w := by
  intro words
  induction words with
  | nil =>
    intro y cur hcur
    constructor
    · intro l hl
      simp [wrapLoop] at hl
    · simpa [wrapLoop] using hcur
  | cons word rest ih =>
    intro y cur hcur
    by_cases hcn : cur = []
    · subst hcn
      rw [wrapLoop_cons_nil]
      split_ifs with h1 h2
      · exact ih y word h1
      · constructor
        · intro l hl
          rcases List.mem_append.mp hl with hm | hm
          · exact emitChunks_length_le (strChunks_length_le word w) y h l hm
          · exact (ih _ [] (by simp)).1 l hm
        · exact (ih _ [] (by simp)).2
      · exact ih y word (by omega)
    · rw [wrapLoop_cons_cons w h word cur rest y hcn]
      split_ifs with h1 h2 h3
      · exact ih y _ h1
      · constructor
        · intro l hl
          simp at hl
          subst hl
          exact hcur
        · exact hcur
      · constructor
        · intro l hl
          rcases List.mem_cons.mp hl with hm | hm
          · subst hm; exact hcur
          · rcases List.mem_append.mp hm with hm' | hm'
            · exact emitChunks_length_le (strChunks_length_le word w) (y + 1) h l hm'
            · exact (ih _ [] (by simp)).1 l hm'
        · exact (ih _ [] (by simp)).2
      · constructor
        · intro l hl
          rcases List.mem_cons.mp hl with hm | hm
          · subst hm; exact hcur
          · exact (ih (y + 1) word (by omega)).1 l hm
        · exact (ih (y + 1) word (by omega)).2

/-- No output line of the word wrap ever exceeds the width. -/
theorem wrapCommandLines_length_le (command : List Char) (w h : Nat) :
    ∀ line ∈ wrapCommandLines command w h, line.length ≤ w := by
  intro line hline
  simp only [wrapCommandLines] at hline
  have hw := wrapLoop_length_le w h (splitOnChar ' ' command) 2 [] (by simp)
  split_ifs at hline with hc
  · rcases List.mem_append.mp hline with h1 | h1
    · exact hw.1 line h1
    · simp at h1
      subst h1
      exact hw.2
  · exact hw.1 line hline

set_option maxRecDepth 4000 in
/-- C7: for a positive terminal width, the command-view word wrap never
emits a line wider than the terminal (greedy word fill, over-wide words
hard-split into width-sized chunks); in particular a 200-character
space-free command wrapped at width 40 gives exactly five 40-character
lines whose concatenation restores the original string. -/
theorem wrapCommand_width_bound (command : List Char) (w h : Nat) (_hw : 0 < w) :
    (∀ line ∈ wrapCommandLines command w h, line.length ≤ w) ∧
    (wrapCommandLines (List.replicate 200 'a') 40 24 =
        [List.replicate 40 'a', List.replicate 40 'a', List.replicate 40 'a',
          List.replicate 40 'a', List.replicate 40 'a'] ∧
      (wrapCommandLines (List.replicate 200 'a') 40 24).foldl (· ++ ·) [] =
        List.replicate 200 'a') :=
  ⟨wrapCommandLines_length_le command w h, by decide⟩

/-- C7 witness: the width bound at the concrete 200-character input. -/
theorem wrapCommand_width_bound_witness :
    0 < 40 ∧
    (∀ line ∈ wrapCommandLines (List.replicate 200 'a') 40 24, line.length ≤ 40) :=
  ⟨by decide,
    (wrapCommand_width_bound (List.replicate 200 'a') 40 24 (by decide)).1⟩

end Kipo
